import Mathlib

/-!
Verification of `src/send_tcp.c` (raw-tcp-segment).

A shallow embedding of the packet-assembly and checksum engine of
`src/send_tcp.c`, at the byte level, faithful to the target of the program
(x86-64, little-endian, GCC bit-field layout), together with proofs and
refutations of the claims of the specification.

Bytes are modelled as `Nat` values (with the invariant `< 256` carried as
hypotheses or enforced by `% 256` exactly where the C performs an integer
conversion).  Multi-byte struct fields are serialised in the little-endian
order in which they sit in memory on the target of the program, since the
checksum routine and the serialiser (`memcpy` into the PDU buffer) both
read that memory byte by byte.
-/

namespace SendTcp

/-- Models `htons`: byte swap of a 16-bit value (the argument is first reduced to
16 bits, as the C prototype converts to `uint16_t`). -/
def swap16 (v : Nat) : Nat :=
  (v % 256) * 256 + (v / 256) % 256

/-- Models `htonl`: byte reversal of a 32-bit value. -/
def swap32 (v : Nat) : Nat :=
  (v % 256) * 16777216 + (v / 256 % 256) * 65536 + (v / 65536 % 256) * 256
    + (v / 16777216) % 256

/-- The two bytes of a `uint16_t` field as they sit in memory on the
little-endian target: low byte first. -/
def le16 (v : Nat) : List Nat := [v % 256, v / 256 % 256]

/-- The four bytes of a `uint32_t` field in memory: low byte first. -/
def le32 (v : Nat) : List Nat :=
  [v % 256, v / 256 % 256, v / 65536 % 256, v / 16777216 % 256]

/-- The 16-bit words read by the `while(num_bytes > 1)` loop of
`checksum` (src/send_tcp.c:98-102): each `uint16_t` load on the
little-endian target yields `lo + 256 * hi`.  A final odd byte is stored
into the first (low) byte of a zeroed 16-bit word
(src/send_tcp.c:103-107), so it contributes its own value. -/
def words16le : List Nat → List Nat
  | [] => []
  | [b] => [b]
  | lo :: hi :: rest => (lo + 256 * hi) :: words16le rest

/-- The folding and complement steps of `checksum`
(src/send_tcp.c:108-112): `sum = (sum >> 16) + (sum & 0xFFFF);
sum = sum + (sum >> 16); answer = ~sum;` returned as `uint16_t`,
i.e. `0xFFFF - (sum & 0xFFFF)`. -/
def fold_complement (sum : Nat) : Nat :=
  65535 -
    ((sum / 65536 + sum % 65536) + (sum / 65536 + sum % 65536) / 65536) % 65536

/-- Models `checksum` (src/send_tcp.c:91-113): ones-complement Internet checksum
of a byte range, accumulating host-order (little-endian) 16-bit words. -/
def checksum (bytes : List Nat) : Nat :=
  fold_complement (words16le bytes).sum

/-- The 20 bytes of `struct ip_header` (src/send_tcp.c:29-42) as
initialised by `send_tcp_packet` (src/send_tcp.c:170-182), in memory
order on the target:
byte 0 holds `ihl` in the low nibble and `version` in the high nibble
(little-endian bit-fields), `total_length` already passed through
`htons`, `identification` zero-filled by the designated initializer,
`flags`/`fragment_offset` zero, `ttl = 64`, `protocol = IPPROTO_TCP = 6`,
then the checksum field and the two addresses. -/
def ip_header_bytes (source_address destination_address : Nat)
    (total_length : Nat) (header_checksum : Nat) : List Nat :=
  [5 + 16 * 4, 0]
    ++ le16 (swap16 total_length)
    ++ le16 0
    ++ [0, 0]
    ++ [64, 6]
    ++ le16 header_checksum
    ++ le32 source_address
    ++ le32 destination_address

/-- The IP-header builder inside `send_tcp_packet`
(src/send_tcp.c:169-183): compute
`total_length = sizeof(ip) + sizeof(tcp) + data_length` as `uint16_t`
(truncation mod 2^16), fill the header with checksum 0, then store
`checksum(&iph, 20)` into `header_checksum` without further swapping. -/
def build_ip_header (sa da : Nat) (data_length : Nat) : List Nat :=
  let total_length := (40 + data_length) % 65536
  ip_header_bytes sa da total_length
    (checksum (ip_header_bytes sa da total_length 0))

/-- The flags byte (byte 13) of `struct tcp_header`
(src/send_tcp.c:51-52, 191-196): little-endian bit-fields put `fin` at
bit 0 up to `urg` at bit 5, `reserved2` at bits 6-7;
`.fin = (flags & 0x01) >> 0`, ..., `.urg = (flags & 0x20) >> 5`,
each mask-and-shift extracting one bit: `(flags & 2^k) >> k = flags / 2^k % 2`. -/
def tcp_flags_byte (flags : Nat) : Nat :=
  flags % 2 + 2 * (flags / 2 % 2) + 4 * (flags / 4 % 2) + 8 * (flags / 8 % 2)
    + 16 * (flags / 16 % 2) + 32 * (flags / 32 % 2)

/-- The 20 bytes of `struct tcp_header` (src/send_tcp.c:45-58) as
initialised by `send_tcp_packet` (src/send_tcp.c:184-200): ports,
sequence and acknowledgment numbers stored verbatim (no byte swap in the
core), byte 12 holds `reserved1` low / `data_offset = 5` high,
byte 13 the flag bits, `window = htons(32768)`, then checksum and
`urgent_pointer = 0`. -/
def tcp_header_bytes (source_port destination_port : Nat)
    (sequence_number acknowledgment_number : Nat)
    (flags : Nat) (cksum : Nat) : List Nat :=
  le16 source_port
    ++ le16 destination_port
    ++ le32 sequence_number
    ++ le32 acknowledgment_number
    ++ [0 + 16 * 5]
    ++ [tcp_flags_byte flags]
    ++ le16 (swap16 32768)
    ++ le16 cksum
    ++ le16 0

/-- Models `build_pseudo_header` (src/send_tcp.c:126-140): the 12 bytes of
`struct pseudo_header` — source address, destination address, one zero
byte, protocol (= 6, copied from the IP header), then
`htons(sizeof(struct tcp_header) + options_length + tcp_payload_length)`
where `options_length = 0` and `tcp_payload_length` is the payload length
converted to `uint16_t` at the call site. -/
def build_pseudo_header (sa da : Nat) (data_length : Nat) : List Nat :=
  le32 sa ++ le32 da ++ [0, 6]
    ++ le16 (swap16 ((20 + data_length % 65536) % 65536))

/-- Models `build_tcp_checksum` (src/send_tcp.c:143-163): assemble
pseudo-header ‖ TCP header (checksum field 0) ‖ payload in a transient
buffer (the `memcpy` of the payload copies `data_length` bytes where
`data_length` is the `uint16_t` parameter, i.e. the length truncated
mod 2^16) and return the `checksum` of the buffer, which the caller
stores into `tcph->checksum`. -/
def build_tcp_checksum (ph : List Nat) (tcph_zero : List Nat)
    (data : List Nat) (data_length : Nat) : Nat :=
  checksum (ph ++ tcph_zero ++ data.take (data_length % 65536))

/-- The finished TCP-checksum coverage: pseudo-header ‖ TCP header with
the computed checksum stored in its checksum field ‖ payload, exactly
as `send_tcp_packet` produces it (src/send_tcp.c:184-203). -/
def finished_tcp_coverage (sa sp da dp seq ack fl : Nat)
    (data : List Nat) : List Nat :=
  let ph := build_pseudo_header sa da data.length
  let tcph0 := tcp_header_bytes sp dp seq ack fl 0
  let c := build_tcp_checksum ph tcph0 data data.length
  ph ++ tcp_header_bytes sp dp seq ack fl c ++ data

/-- Models `send_tcp_packet` (src/send_tcp.c:167-228), restricted to the bytes
of the PDU it assembles and hands to `sendto`: IP header ‖ TCP header ‖
payload (src/send_tcp.c:205-208).  The parameter reductions mirror the
`uint32_t`/`uint16_t`/`uint8_t` conversions of the C prototype. -/
def send_tcp_packet_pdu (source_address source_port destination_address
    destination_port sequence_number acknowledgement_number flags : Nat)
    (data : List Nat) : List Nat :=
  let sa := source_address % 4294967296
  let da := destination_address % 4294967296
  let sp := source_port % 65536
  let dp := destination_port % 65536
  let seq := sequence_number % 4294967296
  let ack := acknowledgement_number % 4294967296
  let fl := flags % 256
  let iph := build_ip_header sa da data.length
  let ph := build_pseudo_header sa da data.length
  let tcph0 := tcp_header_bytes sp dp seq ack fl 0
  let c := build_tcp_checksum ph tcph0 data data.length
  iph ++ tcp_header_bytes sp dp seq ack fl c ++ data

/-- Reading two consecutive bytes of the finished buffer as a big-endian
16-bit integer (the view of the receiver). -/
def be16at (l : List Nat) (i : Nat) : Nat :=
  256 * l.getD i 0 + l.getD (i + 1) 0

/-- Reading four consecutive bytes as a big-endian 32-bit integer. -/
def be32at (l : List Nat) (i : Nat) : Nat :=
  16777216 * l.getD i 0 + 65536 * l.getD (i + 1) 0
    + 256 * l.getD (i + 2) 0 + l.getD (i + 3) 0

/-- Words as the verifier reads them: the buffer read as consecutive
big-endian words, an odd trailing byte zero-padded (it becomes the high
byte of the final word). -/
def words16be : List Nat → List Nat
  | [] => []
  | [b] => [256 * b]
  | hi :: lo :: rest => (256 * hi + lo) :: words16be rest

/-- One step of end-around-carry (ones-complement) addition of two
16-bit quantities: a carry out of bit 15 is added back at bit 0. -/
def oc_add (a b : Nat) : Nat :=
  if a + b < 65536 then a + b else a + b - 65535

/-- The ones-complement sum of a list of 16-bit words. -/
def oc_sum (ws : List Nat) : Nat := ws.foldl oc_add 0

set_option linter.unusedVariables false in
/-- Models `main` (src/send_tcp.c:233-263): exit status 1 when `argc` is
neither 5 nor 6; otherwise `send_tcp_packet` is called (it prints any
socket-creation or send error to stderr and returns `void`, propagating
nothing) and `main` returns 0.  The outcomes of the two OS collaborators
are passed as parameters to show the status does not depend on them. -/
def main_exit_status (argc : Nat) (socket_ok send_ok : Bool) : Nat :=
  if argc = 5 ∨ argc = 6 then 0 else 1

end SendTcp

namespace SendTcp

/-! ## Basic lemmas about the checksum words -/

/-- Reading words distributes over an append at an even offset. -/
theorem words16le_append_even (xs ys : List Nat) (h : xs.length % 2 = 0) :
    words16le (xs ++ ys) = words16le xs ++ words16le ys := by
  induction xs using words16le.induct with
  | case1 => simp [words16le]
  | case2 b => simp at h
  | case3 lo hi rest ih =>
      simp only [List.length_cons] at h
      simp only [List.cons_append, words16le, List.append_eq, List.sum_cons]
      rw [ih (by omega)]

/-- Appending one zero byte to an odd-length buffer does not change the
word list: the odd byte was already read as the low byte of a zero-high
word. -/
theorem words16le_append_zero (b : List Nat) (h : b.length % 2 = 1) :
    words16le (b ++ [0]) = words16le b := by
  induction b using words16le.induct with
  | case1 => simp at h
  | case2 x => simp [words16le]
  | case3 lo hi rest ih =>
      simp only [List.length_cons] at h
      simp only [List.cons_append, words16le, List.append_eq]
      rw [ih (by omega)]

/-- The complement returned by `checksum` fits in 16 bits. -/
theorem fold_complement_le (s : Nat) : fold_complement s ≤ 65535 := by
  unfold fold_complement
  omega

/-- Key checksum identity: for any accumulator value below `2^32`
(no `int32_t` overflow in the C loop), adding the folded complement back
to the raw word sum gives a multiple of `65535` — the ones-complement
sum of data plus stored checksum is congruent to 0. -/
theorem fold_complement_add (s : Nat) (h : s < 4294967296) :
    (s + fold_complement s) % 65535 = 0 := by
  unfold fold_complement
  have h1 : s / 65536 + s % 65536 < 131071 := by omega
  rcases Nat.lt_or_ge (s / 65536 + s % 65536) 65536 with hc | hc
  · have h3 : (s / 65536 + s % 65536) / 65536 = 0 := Nat.div_eq_of_lt hc
    rw [h3]
    omega
  · have h3 : (s / 65536 + s % 65536) / 65536 = 1 := by omega
    rw [h3]
    omega

/-- Bound on the raw word sum: each 16-bit word is at most 65535 and
there are `⌈length/2⌉` of them. -/
theorem words16le_sum_le (B : List Nat) (hb : ∀ b ∈ B, b < 256) :
    2 * (words16le B).sum ≤ 65535 * (B.length + 1) := by
  induction B using words16le.induct with
  | case1 => simp [words16le]
  | case2 b =>
      have hb0 : b < 256 := hb b (by simp)
      simp only [words16le, List.sum_cons, List.sum_nil, List.length_cons,
        List.length_nil]
      omega
  | case3 lo hi rest ih =>
      have h1 : lo < 256 := hb lo (by simp)
      have h2 : hi < 256 := hb hi (by simp)
      have ih' := ih (fun b hbm => hb b (by simp [hbm]))
      simp only [words16le, List.sum_cons, List.length_cons]
      omega

/-- Swapping the bytes of every word multiplies the sum by 256 modulo
`65535` (a byte swap of a 16-bit word is a rotation by 8 bits, and
`65536 ≡ 1 [MOD 65535]`). -/
theorem words16be_sum_modeq (B : List Nat) :
    (words16be B).sum ≡ 256 * (words16le B).sum [MOD 65535] := by
  induction B using words16be.induct with
  | case1 => rfl
  | case2 b => rfl
  | case3 hi lo rest ih =>
      simp only [words16be, words16le, List.sum_cons]
      have h1 : (lo : Nat) ≡ 65536 * lo [MOD 65535] := by
        have h2 : (1 : Nat) ≡ 65536 [MOD 65535] := by decide
        simpa using h2.mul_right lo
      have h3 := ((Nat.ModEq.refl (256 * hi)).add h1).add ih
      calc 256 * hi + lo + (words16be rest).sum
          ≡ 256 * hi + 65536 * lo + 256 * (words16le rest).sum [MOD 65535] :=
            h3
        _ = 256 * (hi + 256 * lo + (words16le rest).sum) := by ring

/-- Big-endian words of a byte list are genuine 16-bit quantities. -/
theorem words16be_lt (B : List Nat) (hb : ∀ b ∈ B, b < 256) :
    ∀ w ∈ words16be B, w < 65536 := by
  induction B using words16be.induct with
  | case1 => simp [words16be]
  | case2 b =>
      have hb0 : b < 256 := hb b (by simp)
      simp only [words16be, List.mem_singleton]
      omega
  | case3 hi lo rest ih =>
      have h1 : hi < 256 := hb hi (by simp)
      have h2 : lo < 256 := hb lo (by simp)
      have ih' := ih (fun b hbm => hb b (by simp [hbm]))
      intro w hw
      simp only [words16be, List.mem_cons] at hw
      rcases hw with hw | hw
      · omega
      · exact ih' w hw

/-- The word sum dominates the plain byte sum, so a nonzero byte forces
a nonzero word sum. -/
theorem byte_sum_le_words16be_sum (B : List Nat) :
    B.sum ≤ (words16be B).sum := by
  induction B using words16be.induct with
  | case1 => simp [words16be]
  | case2 b =>
      simp only [words16be, List.sum_cons, List.sum_nil]
      omega
  | case3 hi lo rest ih =>
      simp only [words16be, List.sum_cons]
      omega

/-! ## Ones-complement summation (the verification at the receiver) -/

/-- End-around-carry folding keeps the accumulator within 16 bits. -/
theorem oc_foldl_lt (ws : List Nat) (acc : Nat) (hacc : acc < 65536)
    (hw : ∀ w ∈ ws, w < 65536) : ws.foldl oc_add acc < 65536 := by
  induction ws generalizing acc with
  | nil => simpa using hacc
  | cons w rest ih =>
      simp only [List.foldl_cons]
      refine ih _ ?_ ?_
      · have hw0 : w < 65536 := hw w (by simp)
        unfold oc_add
        split <;> omega
      · intro x hx
        exact hw x (by simp [hx])

/-- The ones-complement fold is congruent to the plain sum mod 65535. -/
theorem oc_foldl_modeq (ws : List Nat) (acc : Nat) :
    ws.foldl oc_add acc ≡ acc + ws.sum [MOD 65535] := by
  induction ws generalizing acc with
  | nil => simp [Nat.ModEq]
  | cons w rest ih =>
      simp only [List.foldl_cons, List.sum_cons]
      have h1 : oc_add acc w ≡ acc + w [MOD 65535] := by
        show oc_add acc w % 65535 = (acc + w) % 65535
        unfold oc_add
        split <;> omega
      calc rest.foldl oc_add (oc_add acc w)
          ≡ oc_add acc w + rest.sum [MOD 65535] := ih _
        _ ≡ acc + w + rest.sum [MOD 65535] := h1.add_right _
        _ = acc + (w + rest.sum) := by ring

/-- The ones-complement fold of anything with a positive plain sum is
positive: `oc_add` can only return 0 when both inputs are 0. -/
theorem oc_foldl_pos (ws : List Nat) (acc : Nat) (h : 0 < acc + ws.sum) :
    0 < ws.foldl oc_add acc := by
  induction ws generalizing acc with
  | nil => simpa using h
  | cons w rest ih =>
      simp only [List.foldl_cons]
      refine ih _ ?_
      simp only [List.sum_cons] at h
      unfold oc_add
      split <;> omega

/-- A list of 16-bit words whose plain sum is a positive multiple of
65535 has ones-complement sum exactly `0xFFFF`. -/
theorem oc_sum_eq_ffff (ws : List Nat) (hw : ∀ w ∈ ws, w < 65536)
    (hmod : ws.sum % 65535 = 0) (hpos : 0 < ws.sum) :
    oc_sum ws = 65535 := by
  have h1 : ws.foldl oc_add 0 < 65536 := oc_foldl_lt ws 0 (by omega) hw
  have h2 : ws.foldl oc_add 0 % 65535 = (0 + ws.sum) % 65535 :=
    oc_foldl_modeq ws 0
  have h3 : 0 < ws.foldl oc_add 0 := oc_foldl_pos ws 0 (by omega)
  unfold oc_sum
  omega

/-! ## Serialized headers: bytes, lengths, sums -/

/-- The function `checksum` always returns a 16-bit value. -/
theorem checksum_le (b : List Nat) : checksum b ≤ 65535 :=
  fold_complement_le _

/-- Every serialized IP-header byte is a genuine byte. -/
theorem ip_header_bytes_lt (sa da tl ck : Nat) :
    ∀ b ∈ ip_header_bytes sa da tl ck, b < 256 := by
  intro b hb
  simp only [ip_header_bytes, le16, le32, swap16, List.cons_append,
    List.nil_append, List.mem_cons, List.not_mem_nil, or_false] at hb
  omega

/-- The serialized IP header is 20 bytes long. -/
theorem ip_header_bytes_length (sa da tl ck : Nat) :
    (ip_header_bytes sa da tl ck).length = 20 := by
  simp [ip_header_bytes, le16, le32]

/-- Storing a 16-bit checksum into the (previously zero) checksum field
adds exactly that value to the word sum of the IP header. -/
theorem ip_words_sum (sa da tl ck : Nat) (hck : ck ≤ 65535) :
    (words16le (ip_header_bytes sa da tl ck)).sum
      = (words16le (ip_header_bytes sa da tl 0)).sum + ck := by
  simp only [ip_header_bytes, le16, le32, swap16, List.cons_append,
    List.nil_append, words16le, List.sum_cons, List.sum_nil]
  omega

/-- Every serialized pseudo-header byte is a genuine byte. -/
theorem build_pseudo_header_lt (sa da L : Nat) :
    ∀ b ∈ build_pseudo_header sa da L, b < 256 := by
  intro b hb
  simp only [build_pseudo_header, le16, le32, swap16, List.cons_append,
    List.nil_append, List.mem_cons, List.not_mem_nil, or_false] at hb
  omega

/-- The serialized pseudo-header is 12 bytes long. -/
theorem build_pseudo_header_length (sa da L : Nat) :
    (build_pseudo_header sa da L).length = 12 := by
  simp [build_pseudo_header, le16, le32]

/-- The pseudo-header always contains the protocol byte 6, so its byte
sum is positive. -/
theorem build_pseudo_header_sum_pos (sa da L : Nat) :
    6 ≤ (build_pseudo_header sa da L).sum := by
  simp only [build_pseudo_header, le16, le32, swap16, List.cons_append,
    List.nil_append, List.sum_cons, List.sum_nil]
  omega

/-- Every serialized TCP-header byte is a genuine byte. -/
theorem tcp_header_bytes_lt (sp dp seq ack fl ck : Nat) :
    ∀ b ∈ tcp_header_bytes sp dp seq ack fl ck, b < 256 := by
  intro b hb
  simp only [tcp_header_bytes, tcp_flags_byte, le16, le32, swap16,
    List.cons_append, List.nil_append, List.mem_cons, List.not_mem_nil,
    or_false] at hb
  omega

/-- The serialized TCP header is 20 bytes long. -/
theorem tcp_header_bytes_length (sp dp seq ack fl ck : Nat) :
    (tcp_header_bytes sp dp seq ack fl ck).length = 20 := by
  simp [tcp_header_bytes, le16, le32]

/-- Storing a 16-bit checksum into the (previously zero) checksum field
adds exactly that value to the word sum of the TCP header. -/
theorem tcp_words_sum (sp dp seq ack fl ck : Nat) (hck : ck ≤ 65535) :
    (words16le (tcp_header_bytes sp dp seq ack fl ck)).sum
      = (words16le (tcp_header_bytes sp dp seq ack fl 0)).sum + ck := by
  simp only [tcp_header_bytes, le16, le32, swap16, List.cons_append,
    List.nil_append, words16le, List.sum_cons, List.sum_nil]
  omega

/-- Word sum of pseudo-header ‖ TCP header ‖ payload splits into the
three word sums: both header lengths are even, so the word boundaries
line up. -/
theorem words16le_sum_triple (ph T data : List Nat) (h1 : ph.length = 12)
    (h2 : T.length = 20) :
    (words16le (ph ++ T ++ data)).sum
      = (words16le ph).sum + (words16le T).sum + (words16le data).sum := by
  rw [words16le_append_even (ph ++ T) data
      (by simp [List.length_append, h1, h2]),
    words16le_append_even ph T (by simp [h1])]
  simp [List.sum_append]
  ring

/-! ## Claim C2 -/

set_option linter.unusedVariables false in
/-- C2: every IP header built by `send_tcp_packet` self-verifies — with
the computed checksum stored in `header_checksum`, the ones-complement
sum of its ten big-endian 16-bit words is `0xFFFF`. -/
theorem ip_checksum_self_verifies (sa da : Nat) (data_length : Nat)
    (hl : data_length ≤ 65495) :
    oc_sum (words16be (build_ip_header sa da data_length)) = 65535 := by
  have hcov : build_ip_header sa da data_length
      = ip_header_bytes sa da ((40 + data_length) % 65536)
          (checksum (ip_header_bytes sa da ((40 + data_length) % 65536) 0)) :=
    rfl
  rw [hcov]
  set tl := (40 + data_length) % 65536 with htl
  set c := checksum (ip_header_bytes sa da tl 0) with hc
  have hck : c ≤ 65535 := checksum_le _
  have hsum : (words16le (ip_header_bytes sa da tl c)).sum
      = (words16le (ip_header_bytes sa da tl 0)).sum + c :=
    ip_words_sum sa da tl c hck
  have hbytes : ∀ b ∈ ip_header_bytes sa da tl c, b < 256 :=
    ip_header_bytes_lt sa da tl c
  have hbound : (words16le (ip_header_bytes sa da tl 0)).sum < 4294967296 := by
    have h2 := words16le_sum_le _ (ip_header_bytes_lt sa da tl 0)
    rw [ip_header_bytes_length] at h2
    omega
  have hmod0 : ((words16le (ip_header_bytes sa da tl 0)).sum + c) % 65535
      = 0 := by
    rw [hc]
    exact fold_complement_add _ hbound
  apply oc_sum_eq_ffff
  · exact words16be_lt _ hbytes
  · have hbe : (words16be (ip_header_bytes sa da tl c)).sum % 65535
        = (256 * (words16le (ip_header_bytes sa da tl c)).sum) % 65535 :=
      words16be_sum_modeq _
    rw [hsum] at hbe
    omega
  · have h69 : 69 ≤ (ip_header_bytes sa da tl c).sum := by
      simp only [ip_header_bytes, le16, le32, swap16, List.cons_append,
        List.nil_append, List.sum_cons, List.sum_nil]
      omega
    have hws := byte_sum_le_words16be_sum (ip_header_bytes sa da tl c)
    omega

/-- Witness for C2 at source address 0, destination address 0 and
payload length 0. -/
theorem ip_checksum_self_verifies_witness :
    (0 : Nat) ≤ 65495 ∧
      oc_sum (words16be (build_ip_header 0 0 0)) = 65535 :=
  ⟨by decide, ip_checksum_self_verifies 0 0 0 (by decide)⟩

/-! ## Claim C1 -/

/-- C1: for every invocation of `send_tcp_packet` with payload length at
most 65495, the finished TCP segment self-verifies: the ones-complement
sum over pseudo-header ‖ TCP header (computed checksum in place) ‖
payload, read as consecutive big-endian 16-bit words with an odd
trailing byte zero-padded for the sum only, equals `0xFFFF`. -/
theorem tcp_checksum_self_verifies (sa sp da dp seq ack fl : Nat)
    (data : List Nat) (hb : ∀ b ∈ data, b < 256)
    (hl : data.length ≤ 65495) :
    oc_sum (words16be (finished_tcp_coverage sa sp da dp seq ack fl data))
      = 65535 := by
  have htake : data.take (data.length % 65536) = data := by
    rw [Nat.mod_eq_of_lt (by omega), List.take_length]
  have hcov : finished_tcp_coverage sa sp da dp seq ack fl data
      = build_pseudo_header sa da data.length
          ++ tcp_header_bytes sp dp seq ack fl
               (checksum (build_pseudo_header sa da data.length
                 ++ tcp_header_bytes sp dp seq ack fl 0 ++ data))
          ++ data := by
    simp only [finished_tcp_coverage, build_tcp_checksum, htake]
  rw [hcov]
  set ph := build_pseudo_header sa da data.length with hph
  set T0 := tcp_header_bytes sp dp seq ack fl 0 with hT0
  set c := checksum (ph ++ T0 ++ data) with hc
  have hlph : ph.length = 12 := by
    rw [hph]; exact build_pseudo_header_length sa da data.length
  have hlT0 : T0.length = 20 := by
    rw [hT0]; exact tcp_header_bytes_length sp dp seq ack fl 0
  have hlTc : (tcp_header_bytes sp dp seq ack fl c).length = 20 :=
    tcp_header_bytes_length sp dp seq ack fl c
  have hck : c ≤ 65535 := by rw [hc]; exact checksum_le _
  -- word sums of the two buffers differ exactly by the stored checksum
  have hsum0 : (words16le (ph ++ T0 ++ data)).sum
      = (words16le ph).sum + (words16le T0).sum + (words16le data).sum :=
    words16le_sum_triple ph T0 data hlph hlT0
  have hsumc : (words16le (ph ++ tcp_header_bytes sp dp seq ack fl c ++ data)).sum
      = (words16le ph).sum + (words16le T0).sum + (words16le data).sum + c := by
    rw [words16le_sum_triple ph _ data hlph hlTc]
    rw [hT0] at *
    rw [tcp_words_sum sp dp seq ack fl c hck]
    ring
  -- bytes of both buffers are genuine bytes
  have hbytes0 : ∀ b ∈ ph ++ T0 ++ data, b < 256 := by
    intro b hbm
    simp only [List.mem_append] at hbm
    rcases hbm with (hbm | hbm) | hbm
    · exact build_pseudo_header_lt sa da data.length b (by rwa [hph] at hbm)
    · exact tcp_header_bytes_lt sp dp seq ack fl 0 b (by rwa [hT0] at hbm)
    · exact hb b hbm
  have hbytesc : ∀ b ∈ ph ++ tcp_header_bytes sp dp seq ack fl c ++ data,
      b < 256 := by
    intro b hbm
    simp only [List.mem_append] at hbm
    rcases hbm with (hbm | hbm) | hbm
    · exact build_pseudo_header_lt sa da data.length b (by rwa [hph] at hbm)
    · exact tcp_header_bytes_lt sp dp seq ack fl c b hbm
    · exact hb b hbm
  -- no 32-bit overflow of the checksum accumulator
  have hbound : (words16le (ph ++ T0 ++ data)).sum < 4294967296 := by
    have h2 := words16le_sum_le _ hbytes0
    have h3 : (ph ++ T0 ++ data).length = 32 + data.length := by
      simp [List.length_append, hlph, hlT0]
      omega
    rw [h3] at h2
    omega
  have hmod0 : ((words16le (ph ++ T0 ++ data)).sum + c) % 65535 = 0 := by
    rw [hc]
    exact fold_complement_add _ hbound
  apply oc_sum_eq_ffff
  · exact words16be_lt _ hbytesc
  · have hbe : (words16be
          (ph ++ tcp_header_bytes sp dp seq ack fl c ++ data)).sum % 65535
        = (256 * (words16le
            (ph ++ tcp_header_bytes sp dp seq ack fl c ++ data)).sum) % 65535 :=
      words16be_sum_modeq _
    rw [hsumc] at hbe
    rw [hsum0] at hmod0
    omega
  · have h6 : 6 ≤ ph.sum := by
      rw [hph]; exact build_pseudo_header_sum_pos sa da data.length
    have hbsum : (ph ++ tcp_header_bytes sp dp seq ack fl c ++ data).sum
        = ph.sum + (tcp_header_bytes sp dp seq ack fl c).sum + data.sum := by
      simp [List.sum_append]
      ring
    have hws := byte_sum_le_words16be_sum
      (ph ++ tcp_header_bytes sp dp seq ack fl c ++ data)
    omega

/-- Witness for C1: bare segment with all-zero addressing parameters and
empty payload. -/
theorem tcp_checksum_self_verifies_witness :
    (∀ b ∈ ([] : List Nat), b < 256) ∧ ([] : List Nat).length ≤ 65495 ∧
      oc_sum (words16be (finished_tcp_coverage 0 0 0 0 0 0 0 [])) = 65535 :=
  ⟨by decide, by decide,
    tcp_checksum_self_verifies 0 0 0 0 0 0 0 [] (by decide) (by decide)⟩

/-!  ## Claim C7 -/

/-- C7: for every byte sequence of odd length, the checksum is unchanged
by appending one zero byte — the odd trailing byte is padded with a zero
low byte for the sum only, and a trailing zero byte contributes 0. -/
theorem checksum_append_zero_of_odd (b : List Nat)
    (h : b.length % 2 = 1) :
    checksum (b ++ [0]) = checksum b := by
  unfold checksum
  rw [words16le_append_zero b h]

/-- Witness for C7 at the concrete odd-length all-zero buffer `[0,0,0]`
(scenario S6). -/
theorem checksum_append_zero_of_odd_witness :
    ([0, 0, 0] : List Nat).length % 2 = 1 ∧
      checksum (([0, 0, 0] : List Nat) ++ [0]) = checksum [0, 0, 0] :=
  ⟨by decide, checksum_append_zero_of_odd [0, 0, 0] (by decide)⟩

/-! ## Claim C8 -/

/-- C8: the checksum of the empty byte range is `0xFFFF` — the
accumulator stays 0, folding leaves 0, and the complement of the low
16 bits is 65535. -/
theorem checksum_nil : checksum [] = 65535 := by decide

/-! ## Byte-order round trips -/

/-- The `htons` output fits in 16 bits. -/
theorem swap16_lt (v : Nat) : swap16 v < 65536 := by
  unfold swap16
  omega

/-- The `htonl` output fits in 32 bits. -/
theorem swap32_lt (v : Nat) : swap32 v < 4294967296 := by
  unfold swap32
  omega

/-- A 16-bit value stored little-endian after `htons` reads back
big-endian as the original value. -/
theorem be16_le16_swap16 (v : Nat) (h : v < 65536) :
    256 * (swap16 v % 256) + swap16 v / 256 % 256 = v := by
  have h2 : swap16 v = 256 * (v % 256) + v / 256 % 256 := by
    unfold swap16
    ring
  have hm1 : swap16 v % 256 = v / 256 % 256 := by
    rw [h2, Nat.mul_add_mod, Nat.mod_mod_of_dvd _ dvd_rfl]
  have hd1 : swap16 v / 256 = v % 256 := by
    rw [h2, Nat.mul_add_div (by norm_num),
      Nat.div_eq_of_lt (show v / 256 % 256 < 256 by omega), Nat.add_zero]
  rw [hm1, hd1]
  omega

/-- A 32-bit value stored little-endian after `htonl` reads back
big-endian as the original value. -/
theorem be32_le32_swap32 (v : Nat) (h : v < 4294967296) :
    16777216 * (swap32 v % 256) + 65536 * (swap32 v / 256 % 256)
      + 256 * (swap32 v / 65536 % 256) + swap32 v / 16777216 % 256 = v := by
  have h2 : swap32 v
      = 256 * (v % 256 * 65536 + v / 256 % 256 * 256 + v / 65536 % 256)
        + v / 16777216 % 256 := by
    unfold swap32
    ring
  have hm1 : swap32 v % 256 = v / 16777216 % 256 := by
    rw [h2, Nat.mul_add_mod, Nat.mod_mod_of_dvd _ dvd_rfl]
  have hd1 : swap32 v / 256
      = v % 256 * 65536 + v / 256 % 256 * 256 + v / 65536 % 256 := by
    rw [h2, Nat.mul_add_div (by norm_num),
      Nat.div_eq_of_lt (show v / 16777216 % 256 < 256 by omega), Nat.add_zero]
  have hm2 : swap32 v / 256 % 256 = v / 65536 % 256 := by
    have h3 : swap32 v / 256
        = 256 * (v % 256 * 256 + v / 256 % 256) + v / 65536 % 256 := by
      rw [hd1]
      ring
    rw [h3, Nat.mul_add_mod, Nat.mod_mod_of_dvd _ dvd_rfl]
  have hd2 : swap32 v / 65536 = v % 256 * 256 + v / 256 % 256 := by
    have h4 : swap32 v = 65536 * (v % 256 * 256 + v / 256 % 256)
        + (v / 65536 % 256 * 256 + v / 16777216 % 256) := by
      unfold swap32
      ring
    rw [h4, Nat.mul_add_div (by norm_num),
      Nat.div_eq_of_lt
        (show v / 65536 % 256 * 256 + v / 16777216 % 256 < 65536 by omega),
      Nat.add_zero]
  have hm3 : swap32 v / 65536 % 256 = v / 256 % 256 := by
    have h5 : swap32 v / 65536 = 256 * (v % 256) + v / 256 % 256 := by
      rw [hd2]
      ring
    rw [h5, Nat.mul_add_mod, Nat.mod_mod_of_dvd _ dvd_rfl]
  have hd3 : swap32 v / 16777216 = v % 256 := by
    have h6 : swap32 v = 16777216 * (v % 256)
        + (v / 256 % 256 * 65536 + v / 65536 % 256 * 256
            + v / 16777216 % 256) := by
      unfold swap32
      ring
    rw [h6, Nat.mul_add_div (by norm_num),
      Nat.div_eq_of_lt
        (show v / 256 % 256 * 65536 + v / 65536 % 256 * 256
            + v / 16777216 % 256 < 16777216 by omega),
      Nat.add_zero]
  have hm4 : swap32 v / 16777216 % 256 = v % 256 := by
    rw [hd3, Nat.mod_mod_of_dvd _ dvd_rfl]
  rw [hm1, hm2, hm3, hm4]
  clear h2 hm1 hd1 hm2 hd2 hm3 hd3 hm4
  omega

/-! ## Claim C3

The claim says the *core* (`send_tcp_packet`) byte-swaps the numeric
arguments for wire emission.  It does not: src/send_tcp.c:184-188 stores
`source_port`, `destination_port`, `sequence_number` and
`acknowledgment_number` into the header verbatim; it is the *caller*
(`main`, src/send_tcp.c:250-260) that applies `htons`/`htonl` before the
call.  Passing a host-order value directly to `send_tcp_packet` puts its
bytes on the wire little-endian. -/

/-- C3 counterexample: calling `send_tcp_packet` with the host-order
source port 1 yields a PDU whose source-port field, read big-endian
(bytes 20-21), is 256, not the supplied 1. -/
theorem byte_order_counterexample :
    be16at (send_tcp_packet_pdu 0 1 0 0 0 0 0 []) 20 ≠ 1 := by decide

/-- C3 amended: `send_tcp_packet` emits the numeric arguments verbatim,
so when the caller pre-swaps them with `htons`/`htonl` (as `main` does),
re-reading the finished PDU as big-endian integers recovers exactly the
original host-order values. -/
theorem byte_order_roundtrip (sa sp da dp seq ack fl : Nat)
    (data : List Nat) (h1 : sp < 65536) (h2 : dp < 65536)
    (h3 : seq < 4294967296) (h4 : ack < 4294967296) :
    be16at (send_tcp_packet_pdu sa (swap16 sp) da (swap16 dp)
      (swap32 seq) (swap32 ack) fl data) 20 = sp ∧
    be16at (send_tcp_packet_pdu sa (swap16 sp) da (swap16 dp)
      (swap32 seq) (swap32 ack) fl data) 22 = dp ∧
    be32at (send_tcp_packet_pdu sa (swap16 sp) da (swap16 dp)
      (swap32 seq) (swap32 ack) fl data) 24 = seq ∧
    be32at (send_tcp_packet_pdu sa (swap16 sp) da (swap16 dp)
      (swap32 seq) (swap32 ack) fl data) 28 = ack := by
  refine ⟨?_, ?_, ?_, ?_⟩
  · have h : be16at (send_tcp_packet_pdu sa (swap16 sp) da (swap16 dp)
        (swap32 seq) (swap32 ack) fl data) 20
        = 256 * (swap16 sp % 65536 % 256)
          + swap16 sp % 65536 / 256 % 256 := rfl
    rw [h, Nat.mod_eq_of_lt (swap16_lt sp)]
    exact be16_le16_swap16 sp h1
  · have h : be16at (send_tcp_packet_pdu sa (swap16 sp) da (swap16 dp)
        (swap32 seq) (swap32 ack) fl data) 22
        = 256 * (swap16 dp % 65536 % 256)
          + swap16 dp % 65536 / 256 % 256 := rfl
    rw [h, Nat.mod_eq_of_lt (swap16_lt dp)]
    exact be16_le16_swap16 dp h2
  · have h : be32at (send_tcp_packet_pdu sa (swap16 sp) da (swap16 dp)
        (swap32 seq) (swap32 ack) fl data) 24
        = 16777216 * (swap32 seq % 4294967296 % 256)
          + 65536 * (swap32 seq % 4294967296 / 256 % 256)
          + 256 * (swap32 seq % 4294967296 / 65536 % 256)
          + swap32 seq % 4294967296 / 16777216 % 256 := rfl
    rw [h, Nat.mod_eq_of_lt (swap32_lt seq)]
    exact be32_le32_swap32 seq h3
  · have h : be32at (send_tcp_packet_pdu sa (swap16 sp) da (swap16 dp)
        (swap32 seq) (swap32 ack) fl data) 28
        = 16777216 * (swap32 ack % 4294967296 % 256)
          + 65536 * (swap32 ack % 4294967296 / 256 % 256)
          + 256 * (swap32 ack % 4294967296 / 65536 % 256)
          + swap32 ack % 4294967296 / 16777216 % 256 := rfl
    rw [h, Nat.mod_eq_of_lt (swap32_lt ack)]
    exact be32_le32_swap32 ack h4

/-- Witness for the amended C3 at concrete host-order values. -/
theorem byte_order_roundtrip_witness :
    (4660 : Nat) < 65536 ∧ (80 : Nat) < 65536 ∧
      (4096 : Nat) < 4294967296 ∧ (7 : Nat) < 4294967296 ∧
      be16at (send_tcp_packet_pdu 0 (swap16 4660) 0 (swap16 80)
        (swap32 4096) (swap32 7) 0 []) 20 = 4660 :=
  ⟨by decide, by decide, by decide, by decide,
    (byte_order_roundtrip 0 4660 0 80 4096 7 0 [] (by decide) (by decide)
      (by decide) (by decide)).1⟩

/-! ## Claim C4

The spec demands that the IP header builder reject over-long payloads
with a payload-too-large error.  The code has no length check of any
kind (src/send_tcp.c:167-183): `total_length` is a `uint16_t`, so at
`data_length = 65496` the value `40 + 65496 = 65536` silently wraps to
0, and the malformed PDU is built and sent.  The model of the builder
is therefore total — there is no error path to take. -/

/-- C4: at the failing input `data_length = 65496` the builder does not
reject; it wraps, emitting an IP header whose total_length field (bytes
2-3, read big-endian) is 0. -/
theorem payload_too_large_not_rejected :
    be16at (build_ip_header 0 0 65496) 2 = 0 := by decide

/-! ## Claim C5 -/

/-- C5: for payload length at most 65495, the total_length field of the IP header
field (bytes 2-3, network byte order) is `20 + 20 + L` and the
TCP-length field of the pseudo-header (bytes 10-11, network byte order) is
`20 + L`. -/
theorem length_fields_consistent (sa da L : Nat) (h : L ≤ 65495) :
    be16at (build_ip_header sa da L) 2 = 20 + 20 + L ∧
      be16at (build_pseudo_header sa da L) 10 = 20 + L := by
  constructor
  · have h1 : be16at (build_ip_header sa da L) 2
        = 256 * (swap16 ((40 + L) % 65536) % 256)
          + swap16 ((40 + L) % 65536) / 256 % 256 := rfl
    rw [h1, Nat.mod_eq_of_lt (show 40 + L < 65536 by omega),
      be16_le16_swap16 (40 + L) (by omega)]
  · have h1 : be16at (build_pseudo_header sa da L) 10
        = 256 * (swap16 ((20 + L % 65536) % 65536) % 256)
          + swap16 ((20 + L % 65536) % 65536) / 256 % 256 := rfl
    rw [h1, Nat.mod_eq_of_lt (show L < 65536 by omega),
      Nat.mod_eq_of_lt (show 20 + L < 65536 by omega),
      be16_le16_swap16 (20 + L) (by omega)]

/-- Witness for C5 at payload length 3 (addresses 0). -/
theorem length_fields_consistent_witness :
    (3 : Nat) ≤ 65495 ∧
      be16at (build_ip_header 0 0 3) 2 = 20 + 20 + 3 ∧
      be16at (build_pseudo_header 0 0 3) 10 = 20 + 3 :=
  ⟨by decide, (length_fields_consistent 0 0 3 (by decide)).1,
    (length_fields_consistent 0 0 3 (by decide)).2⟩

/-! ## Claim C6 -/

/-- C6: byte 13 of the emitted TCP header (byte 33 of the PDU) carries
the low six bits of the flags argument — bit 0 FIN up to bit 5 URG —
and its high two bits (the reserved bits) are 0; the high bits of the
argument are ignored.  Equivalently, the byte equals `flags % 64`. -/
theorem flags_byte_low_six_bits (sa sp da dp seq ack fl : Nat)
    (data : List Nat) :
    (send_tcp_packet_pdu sa sp da dp seq ack fl data).getD 33 0
      = fl % 64 := by
  have h : (send_tcp_packet_pdu sa sp da dp seq ack fl data).getD 33 0
      = tcp_flags_byte (fl % 256) := rfl
  rw [h]
  unfold tcp_flags_byte
  omega

/-! ## Claim C9

The claim says `main` exits 1 on send failure, with all errors surfaced
to the caller.  In the code, `send_tcp_packet` is `void` and only
prints socket/send errors to stderr (src/send_tcp.c:219-225); `main`
returns 1 only when `argc` is neither 5 nor 6 (src/send_tcp.c:234-237)
and otherwise returns 0 unconditionally (src/send_tcp.c:262). -/

/-- C9 counterexample: with well-formed arguments (`argc = 6`) and a
failing send, the program still exits 0, not 1. -/
theorem exit_status_counterexample :
    main_exit_status 6 true false ≠ 1 := by decide

/-- C9 amended: the exit status is 1 exactly on argument-count failure
and 0 otherwise; it does not depend on the socket or send outcome, whose
failures are only printed to stderr. -/
theorem exit_status_amended (argc : Nat) (socket_ok send_ok : Bool) :
    main_exit_status argc socket_ok send_ok
        = (if argc = 5 ∨ argc = 6 then 0 else 1) ∧
      main_exit_status argc socket_ok send_ok
        = main_exit_status argc true true :=
  ⟨rfl, rfl⟩

/-! ## Claim C10 -/

/-- C10: the identification field of the emitted IP header (bytes 4-5 of
the PDU) is zero on every invocation — the designated initializer
zero-fills the omitted `identification` member. -/
theorem identification_field_zero (sa sp da dp seq ack fl : Nat)
    (data : List Nat) :
    (send_tcp_packet_pdu sa sp da dp seq ack fl data).getD 4 0 = 0 ∧
      (send_tcp_packet_pdu sa sp da dp seq ack fl data).getD 5 0 = 0 :=
  ⟨rfl, rfl⟩

end SendTcp
